import Mathlib

/-
Verification of ch-backup (ClickHouse backup/restore tool) against its
natural-language specification.

The definitions below are a shallow embedding of the Python sources:
  - ch_backup/logic/table.py        (backup/restore orchestration for tables)
  - ch_backup/cli.py                (command-line entry points)
  - ch_backup/storage/async_pipeline/pipelines.py (upload pipeline sizing)

External effects (ClickHouse client calls, storage uploads, progress-state
writes) are embedded as explicit action traces or oracle functions: a call
that can fail in Python becomes a Bool/Option oracle, and the sequence of
side-effecting calls becomes a list of actions in the order the code issues
them.  Exceptions are embedded as `Except`.  Python floats used only for
equality comparison (file mtimes) are embedded as `Int`.
-/

set_option maxHeartbeats 1000000

namespace ChBackup

/-- A ClickHouse table as far as the backup logic observes it
(ch_backup/clickhouse/models.py `Table`, restricted to the fields the
embedded functions read). -/
structure Table where
  database : String
  name : String
  engine : String
deriving DecidableEq, Repr

/-! ### C10: label argument parsing (cli.py `backup_command`) -/

/-- Embedding of the per-label parsing in `backup_command` (cli.py):
`key_value = key_value_str.split('=', 1); key = key_value.pop(0);
value = key_value.pop() if key_value else None`.
Python strings are embedded as lists of characters.  The result is the
(key, value) pair stored into the labels dict. -/
def parseLabel : List Char → List Char × Option (List Char)
  | [] => ([], none)
  | c :: rest =>
    if c = '=' then ([], some rest)
    else
      let r := parseLabel rest
      (c :: r.1, r.2)

/-! ### C7: backup name validation (cli.py `_validate_name`) -/

/-- Result of a CLI argument validation: either the resolved value or a
usage error raised through `ctx.fail`. -/
inductive CliResult where
  | ok (name : String)
  | usageError (msg : String)
deriving DecidableEq, Repr

/-- Embedding of `_validate_name` (cli.py).  The `backups` argument is the
list of backup names returned by `ch_backup.list()`.
Modelled from the spec (the `ClickhouseBackup.list` implementation is not
among the given sources): the listing contains the CREATED backups, most
recent first, so its head is the most recent CREATED backup. -/
def validateName (backups : List String) (name : String) : CliResult :=
  if name = "LAST" then
    match backups with
    | [] => .usageError "There are no backups."
    | b :: _ => .ok b
  else if backups.contains name then .ok name
  else .usageError ("No backups with name \"" ++ name ++ "\" were found.")

/-! ### C5: encrypted size estimation (pipelines.py) -/

/-- Encryption-related configuration read by `_calc_encrypted_size`
(pipelines.py): the configured plaintext chunk size and the per-chunk
metadata size reported by the encryption implementation. -/
structure EncryptionConf where
  chunk_size : Nat
  metadata_size : Nat
deriving DecidableEq, Repr

/-- Modelled from the spec: `calc_encrypted_size` (ch_backup/calculators.py
is not among the given sources).  Per the spec, the estimated encrypted
total is `ceil(plain/chunk) * (chunk + meta)`. -/
def calcEncryptedSize (dataSize chunkSize metadataSize : Nat) : Nat :=
  ((dataSize + chunkSize - 1) / chunkSize) * (chunkSize + metadataSize)

/-- Embedding of `_calc_encrypted_size` (pipelines.py): reads chunk size and
metadata size from the encryption config and delegates to
`calc_encrypted_size`. -/
def pipelineCalcEncryptedSize (conf : EncryptionConf) (dataSize : Nat) : Nat :=
  calcEncryptedSize dataSize conf.chunk_size conf.metadata_size

/-- Embedding of the estimated-size computation in `upload_data_pipeline`
(pipelines.py): the estimate starts as `len(data)` and is replaced by the
encrypted-size estimate when the encrypt stage is added. -/
def uploadDataPipelineEstimatedSize (conf : EncryptionConf) (encrypt : Bool) (dataLen : Nat) : Nat :=
  if encrypt then pipelineCalcEncryptedSize conf dataLen else dataLen

/-- Modelled from the spec: the encrypt stage splits the plaintext into
chunks of the configured size (the last chunk may be short).  This function
lists the plaintext chunk sizes in order. -/
def plaintextChunkSizes (chunkSize : Nat) : Nat → List Nat
  | 0 => []
  | n + 1 =>
    match chunkSize with
    | 0 => [n + 1]
    | c + 1 => min (n + 1) (c + 1) :: plaintextChunkSizes (c + 1) (n + 1 - (c + 1))

/-- Modelled from the spec: each ciphertext chunk produced by the encrypt
stage is its plaintext chunk plus `metadata_size` bytes of encryption
metadata. -/
def encryptStageChunkSizes (conf : EncryptionConf) (dataLen : Nat) : List Nat :=
  (plaintextChunkSizes conf.chunk_size dataLen).map (fun s => s + conf.metadata_size)

/-! ### C6: table ordering for restore (table.py `_restore_tables`) -/

/-- Embedding of the classification loop of `_restore_tables` (table.py):
each table is schema-rewritten (`_rewrite_table_schema`, embedded as the
function `rw`) and then appended to one of four lists by the engine
predicates `is_merge_tree` / `is_distributed` / `is_view` (imported from
ch_backup/clickhouse/schema.py, embedded as the predicates `mt` / `dist` /
`vw` on the engine string), tested in that order. -/
def classifyTablesForRestore (mt dist vw : String → Bool) (rw : Table → Table) :
    List Table → List Table × List Table × List Table × List Table
  | [] => ([], [], [], [])
  | t :: rest =>
    let u := rw t
    let r := classifyTablesForRestore mt dist vw rw rest
    if mt u.engine then (u :: r.1, r.2.1, r.2.2.1, r.2.2.2)
    else if dist u.engine then (r.1, u :: r.2.1, r.2.2.1, r.2.2.2)
    else if vw u.engine then (r.1, r.2.1, u :: r.2.2.1, r.2.2.2)
    else (r.1, r.2.1, r.2.2.1, u :: r.2.2.2)

/-- Embedding of the order in which `_restore_tables` (table.py) hands the
tables to `_restore_table_objects`:
`chain(merge_tree_tables, other_tables, distributed_tables, view_tables)`. -/
def restoreTablesOrder (mt dist vw : String → Bool) (rw : Table → Table)
    (tables : List Table) : List Table :=
  let r := classifyTablesForRestore mt dist vw rw tables
  r.1 ++ r.2.2.2 ++ r.2.1 ++ r.2.2.1

/-! ### C4: frozen part upload and dedup (table.py `_backup_frozen_table_data`) -/

/-- A frozen data part as listed by `ch_ctl.list_frozen_parts`
(FrozenPart, restricted to the fields the embedded loop reads). -/
structure FrozenPart where
  name : String
  checksum : String
deriving DecidableEq, Repr

/-- Backup metadata of a single data part (PartMetadata, restricted to the
fields the embedded loop reads).  `link` is the path of the backup whose
storage holds the bytes when the part is a dedup reference. -/
structure DataPartMeta where
  name : String
  link : Option String
deriving DecidableEq, Repr

/-- Modelled from the spec: `PartMetadata.from_frozen_part` (the metadata
module is not among the given sources) builds the metadata of a freshly
stored part; a fresh part is not a dedup reference, so its `link` is
empty. -/
def fromFrozenPart (fp : FrozenPart) : DataPartMeta :=
  { name := fp.name, link := none }

/-- Side effects of `_backup_frozen_table_data` (table.py) accumulated over
one disk: the `table_meta.add_part` calls in order, the
`ch_ctl.remove_freezed_part` calls, the `backup_layout.upload_data_part`
calls, and the `uploaded_parts` list collected for post-upload
validation. -/
structure FrozenBackupEffects where
  tableParts : List DataPartMeta
  removedParts : List String
  uploadCalls : List String
  uploadedParts : List DataPartMeta
deriving DecidableEq, Repr

/-- Embedding of the inner loop of `_backup_frozen_table_data` (table.py)
over the frozen parts of one disk.  `dedup` embeds `deduplicate_part`
(the dedup-index lookup; ch_backup/backup/deduplication.py is not among the
given sources), returning the linked part metadata when the part is found
in a previous backup.  `diskType` is `disk.type`. -/
def backupFrozenParts (dedup : FrozenPart → Option DataPartMeta) (diskType : String) :
    List FrozenPart → FrozenBackupEffects → FrozenBackupEffects
  | [], eff => eff
  | fp :: rest, eff =>
    if diskType = "s3" then
      backupFrozenParts dedup diskType rest
        { eff with tableParts := eff.tableParts ++ [fromFrozenPart fp] }
    else
      match dedup fp with
      | some part =>
        backupFrozenParts dedup diskType rest
          { eff with
            tableParts := eff.tableParts ++ [part]
            removedParts := eff.removedParts ++ [fp.name] }
      | none =>
        backupFrozenParts dedup diskType rest
          { eff with
            tableParts := eff.tableParts ++ [fromFrozenPart fp]
            uploadCalls := eff.uploadCalls ++ [fp.name]
            uploadedParts := eff.uploadedParts ++ [fromFrozenPart fp] }

/-! ### C2: per-table backup with OCC mtime check (table.py `_backup_table`) -/

/-- Backup metadata of a single table (TableMetadata, restricted to the
fields `_backup_table` fills in before adding parts). -/
structure TableMetadata where
  database : String
  name : String
  engine : String
deriving DecidableEq, Repr

/-- Side-effecting calls issued by `_backup_table` (table.py), in order. -/
inductive BackupTableAction where
  | freezeTable
  | removeFreezedData
  | uploadCreateStatement
  | backupFrozenData
deriving DecidableEq, Repr

/-- Oracle for the environment `_backup_table` (table.py) runs in:
the bytes of the table's on-disk DDL file (`none` when missing or empty),
whether `freeze_table` succeeds, whether `does_table_exist` holds after a
freeze failure, and the re-read metadata mtime (`none` when the file is
gone). -/
structure BackupTableEnv where
  createStatement : Option String
  freezeOk : Bool
  tableExistsAfterFreezeFail : Bool
  newMtime : Option Int
deriving DecidableEq, Repr

/-- Embedding of `_backup_table` (table.py) from the post-freeze mtime
re-check onwards: skip the table (discarding frozen data) when the re-read
mtime is absent or differs from the snapshot, otherwise upload the DDL and,
unless schema-only, back up the frozen data. -/
def backupTableFromMtimeCheck (table : Table) (env : BackupTableEnv) (schemaOnly : Bool)
    (oldMtime : Int) (acts : List BackupTableAction) :
    Except String (Option TableMetadata) × List BackupTableAction :=
  match env.newMtime with
  | none => (.ok none, acts ++ [.removeFreezedData])
  | some m =>
    if oldMtime ≠ m then (.ok none, acts ++ [.removeFreezedData])
    else
      let meta : TableMetadata := ⟨table.database, table.name, table.engine⟩
      if schemaOnly then (.ok (some meta), acts ++ [.uploadCreateStatement])
      else (.ok (some meta), acts ++ [.uploadCreateStatement, .backupFrozenData])

/-- Embedding of `_backup_table` (table.py).  Returns the result (the
table metadata of a successfully backed-up table, `none` when the table is
skipped, or a propagated ClickhouseError) together with the trace of
side-effecting calls.  `mergeTree` is `is_merge_tree(table.engine)` and
`oldMtime` is the mtime snapshot taken before the backup
(`mtimes[table.name].mtime`). -/
def backupTable (table : Table) (env : BackupTableEnv) (schemaOnly mergeTree : Bool)
    (oldMtime : Int) : Except String (Option TableMetadata) × List BackupTableAction :=
  match env.createStatement with
  | none => (.ok none, [])
  | some _ =>
    if !schemaOnly && mergeTree then
      if env.freezeOk then backupTableFromMtimeCheck table env schemaOnly oldMtime [.freezeTable]
      else if env.tableExistsAfterFreezeFail then (.error "ClickhouseError", [.freezeTable])
      else (.ok none, [.freezeTable])
    else backupTableFromMtimeCheck table env schemaOnly oldMtime []

/-- Embedding of the per-database table loop of `_backup` (table.py): each
table is backed up by `_backup_table`; a `some` result is added to the
backup metadata, a `none` result skips the table, and an exception aborts
the loop.  Each list entry carries the table, its environment oracle, its
`is_merge_tree` flag and its snapshotted mtime. -/
def backupDatabaseTables (schemaOnly : Bool) :
    List (Table × BackupTableEnv × Bool × Int) → Except String (List TableMetadata)
  | [] => .ok []
  | (t, env, mergeTree, oldMtime) :: rest =>
    match backupTable t env schemaOnly mergeTree oldMtime with
    | (.error e, _) => .error e
    | (.ok none, _) => backupDatabaseTables schemaOnly rest
    | (.ok (some meta), _) => (backupDatabaseTables schemaOnly rest).map (meta :: ·)

/-! ### C9: single table re-creation (table.py `_restore_table_object`) -/

/-- Side-effecting calls issued by `_restore_table_object` (table.py), in
order: `create_table` with the ATTACH-rewritten statement, the
`restore_replica` call, `create_table` with the CREATE-rewritten statement,
and the drop-if-exists calls. -/
inductive RestoreObjectAction where
  | createTableAttach
  | restoreReplicaCall
  | createTableCreate
  | dropDictionaryIfExists
  | dropTableIfExists
deriving DecidableEq, Repr

/-- Oracle for the environment `_restore_table_object` (table.py) runs in:
whether the ATTACH-based `create_table` succeeds, whether
`restore_replica` succeeds, whether the CREATE-based `create_table`
succeeds, and the predicates deciding which calls are made. -/
structure RestoreObjectEnv where
  attachOk : Bool
  replicaOk : Bool
  createOk : Bool
  isReplicatedStatement : Bool
  isMatView : Bool
  versionGe218 : Bool
  isDictionary : Bool
deriving DecidableEq, Repr

/-- Embedding of the fallback-to-CREATE path of `_restore_table_object`
(table.py): run `create_table` with the CREATE statement; if that also
fails, drop the partially created object (dictionary or table) and raise
ClickhouseBackupError. -/
def restoreTableFallback (env : RestoreObjectEnv) (acts : List RestoreObjectAction) :
    Except String Unit × List RestoreObjectAction :=
  let acts2 := acts ++ [.createTableCreate]
  if env.createOk then (.ok (), acts2)
  else if env.isDictionary then
    (.error "Failed to restore table", acts2 ++ [.dropDictionaryIfExists])
  else (.error "Failed to restore table", acts2 ++ [.dropTableIfExists])

/-- Embedding of `_restore_table_object` (table.py): try ATTACH first (plus
`restore_replica` for replicated non-materialized-view tables on versions
at least 21.8); on any failure of that path fall back to CREATE; if the
fallback also fails, drop the object and raise ClickhouseBackupError. -/
def restoreTableObject (env : RestoreObjectEnv) :
    Except String Unit × List RestoreObjectAction :=
  if env.attachOk then
    if env.isReplicatedStatement && !env.isMatView && env.versionGe218 then
      if env.replicaOk then (.ok (), [.createTableAttach, .restoreReplicaCall])
      else restoreTableFallback env [.createTableAttach, .restoreReplicaCall]
    else (.ok (), [.createTableAttach])
  else restoreTableFallback env [.createTableAttach]

/-! ### C1: table data restore (table.py `_restore_data`) -/

/-- How a part's disk is classified by `_restore_data` (table.py):
listed in `backup_meta.s3_revisions`, listed in
`backup_meta.cloud_storage.disks`, or an ordinary local disk. -/
inductive DiskClass where
  | s3Revision
  | cloudStorage
  | localDisk
deriving DecidableEq, Repr

/-- A part processed by `_restore_data` (table.py) together with the oracle
for the external calls made for it: whether the progress index already
lists it (`part_restored`), whether the download/copy step
(`disks.copy_part` or `download_data_part`) succeeds, and whether
`attach_part` succeeds. -/
structure RestorePart where
  name : String
  diskClass : DiskClass
  alreadyRestored : Bool
  prepOk : Bool
  attachOk : Bool
deriving DecidableEq, Repr

/-- Restore progress state mutated by `_restore_data` (table.py): the parts
recorded by `restore_context.add_part` and those recorded by
`restore_context.add_failed_part`. -/
structure RestoreDataState where
  restoredParts : List String
  failedParts : List String
deriving DecidableEq, Repr

/-- Embedding of the first (download) loop of `_restore_data` (table.py):
build the `attach_parts` list.  Already-restored parts are skipped; parts
on `s3_revisions` disks need no transfer; parts on cloud-storage disks are
skipped under `--skip-cloud-storage`, otherwise copied; other parts are
downloaded.  A failed transfer is skipped under `keep_going`, otherwise the
exception propagates. -/
def collectAttachParts (skipCloudStorage keepGoing : Bool) :
    List RestorePart → Except String (List RestorePart)
  | [] => .ok []
  | p :: rest =>
    if p.alreadyRestored then collectAttachParts skipCloudStorage keepGoing rest
    else
      match p.diskClass with
      | .s3Revision => (collectAttachParts skipCloudStorage keepGoing rest).map (p :: ·)
      | .cloudStorage =>
        if skipCloudStorage then collectAttachParts skipCloudStorage keepGoing rest
        else if p.prepOk then (collectAttachParts skipCloudStorage keepGoing rest).map (p :: ·)
        else if keepGoing then collectAttachParts skipCloudStorage keepGoing rest
        else .error ("Restore of part " ++ p.name ++ " failed")
      | .localDisk =>
        if p.prepOk then (collectAttachParts skipCloudStorage keepGoing rest).map (p :: ·)
        else if keepGoing then collectAttachParts skipCloudStorage keepGoing rest
        else .error ("Restore of part " ++ p.name ++ " failed")

/-- Embedding of the second (attach) loop of `_restore_data` (table.py):
attach each collected part; on success record it via `add_part`, on failure
log a warning and record it via `add_failed_part`.  The exception handler
never re-raises. -/
def attachCollectedParts (st : RestoreDataState) : List RestorePart → RestoreDataState
  | [] => st
  | p :: rest =>
    if p.attachOk then
      attachCollectedParts ⟨st.restoredParts ++ [p.name], st.failedParts⟩ rest
    else
      attachCollectedParts ⟨st.restoredParts, st.failedParts ++ [p.name]⟩ rest

/-- Embedding of the per-table body of `_restore_data` (table.py): collect
the parts to attach (exceptions from the download loop propagate), then
attach them, updating the restore progress state. -/
def restoreDataTable (skipCloudStorage keepGoing : Bool) (parts : List RestorePart)
    (st : RestoreDataState) : Except String RestoreDataState :=
  match collectAttachParts skipCloudStorage keepGoing parts with
  | .error e => .error e
  | .ok attachParts => .ok (attachCollectedParts st attachParts)

/-- Embedding of `_restore_data` (table.py) over its table loop.  Each list
entry is a table backup metadata: whether `ch_ctl.get_table` finds the live
table (the `assert` raises when it does not) and the table's parts. -/
def restoreData (skipCloudStorage keepGoing : Bool) :
    List (Bool × List RestorePart) → RestoreDataState → Except String RestoreDataState
  | [], st => .ok st
  | (tableFound, parts) :: rest, st =>
    if tableFound then
      match restoreDataTable skipCloudStorage keepGoing parts st with
      | .error e => .error e
      | .ok st2 => restoreData skipCloudStorage keepGoing rest st2
    else .error "Table not found"

/-- Whether `_restore_data` (table.py) puts the part into its
`attach_parts` list: the part is not already restored and its transfer step
(when one is needed at all) succeeds. -/
def willAttach (skipCloudStorage : Bool) (p : RestorePart) : Bool :=
  !p.alreadyRestored &&
    (match p.diskClass with
     | .s3Revision => true
     | .cloudStorage => !skipCloudStorage && p.prepOk
     | .localDisk => p.prepOk)

/-- Whether the transfer step of `_restore_data` (table.py) fails for the
part: the situation in which the `keep_going` flag decides between skipping
the part and raising. -/
def prepFails (skipCloudStorage : Bool) (p : RestorePart) : Bool :=
  !p.alreadyRestored &&
    (match p.diskClass with
     | .s3Revision => false
     | .cloudStorage => !skipCloudStorage && !p.prepOk
     | .localDisk => !p.prepOk)

/-! ### C3 and C8: table re-creation retry loop (table.py `_restore_table_objects`) -/

/-- State of the retry loop of `_restore_table_objects` (table.py) when it
exits: the recorded `errors` list (one entry per failed attempt, in order),
the tables still in the `unprocessed` deque, and the log of attempts made
(table, succeeded?). -/
structure RestoreLoopState where
  errors : List Table
  queue : List Table
  log : List (Table × Bool)
deriving DecidableEq, Repr

/-- Embedding of the while loop of `_restore_table_objects` (table.py).
`succeed step table` is the oracle for whether the `_restore_table_object`
call of the given attempt succeeds (`step` counts attempts).  Each
iteration pops the deque head; on success the errors list is cleared; on
failure the error is recorded, the table is pushed back to the tail, and
the loop breaks when the errors outnumber the unprocessed tables.  The
Python loop has no built-in bound, so the embedding takes explicit fuel and
returns `none` when the fuel runs out. -/
def restoreTableObjectsLoop (succeed : Nat → Table → Bool) :
    Nat → Nat → List Table → List Table → List (Table × Bool) → Option RestoreLoopState
  | 0, _, _, _, _ => none
  | _ + 1, _, [], errors, log => some ⟨errors, [], log⟩
  | fuel + 1, step, t :: rest, errors, log =>
    if succeed step t then
      restoreTableObjectsLoop succeed fuel (step + 1) rest [] (log ++ [(t, true)])
    else if (rest ++ [t]).length < (errors ++ [t]).length then
      some ⟨errors ++ [t], rest ++ [t], log ++ [(t, false)]⟩
    else
      restoreTableObjectsLoop succeed fuel (step + 1) (rest ++ [t]) (errors ++ [t])
        (log ++ [(t, false)])

/-- Outcome of `_restore_table_objects` (table.py) after the loop: with no
recorded errors the empty list is returned; with errors and `keep_going`
the distinct failed tables are returned; otherwise a ClickhouseBackupError
naming the distinct failed tables is raised.  Python's `list(set(...))` is
embedded as `List.dedup`. -/
inductive RestoreTablesOutcome where
  | ok (failed : List Table)
  | raised (failed : List Table)
deriving DecidableEq, Repr

/-- Embedding of the post-loop handling of `_restore_table_objects`
(table.py). -/
def restoreTableObjectsOutcome (keepGoing : Bool) (errors : List Table) :
    RestoreTablesOutcome :=
  if errors.isEmpty then .ok []
  else if keepGoing then .ok errors.dedup
  else .raised errors.dedup

/-- The tables of the final consecutive-failure streak of an attempt log:
every success resets the streak, every failure extends it.  This mirrors
how the `errors` list of `_restore_table_objects` (table.py) evolves. -/
def failureStreak (log : List (Table × Bool)) : List Table :=
  log.foldl (fun acc e => if e.2 then [] else acc ++ [e.1]) []

/-! ## Theorems -/

/-- C10: every label option argument is split on the first `=` only: the key
is the text before it, the value everything after it; an argument without
`=` maps the whole text to the value None. -/
theorem claim_c10_label_split :
    (∀ a b : List Char, '=' ∉ a → parseLabel (a ++ '=' :: b) = (a, some b)) ∧
    (∀ s : List Char, '=' ∉ s → parseLabel s = (s, none)) := by
  constructor
  · intro a b h
    induction a with
    | nil => simp [parseLabel]
    | cons c cs ih =>
      simp only [List.mem_cons, not_or] at h
      have hc : ¬c = '=' := fun hh => h.1 hh.symm
      simp [parseLabel, hc, ih h.2]
  · intro s h
    induction s with
    | nil => simp [parseLabel]
    | cons c cs ih =>
      simp only [List.mem_cons, not_or] at h
      have hc : ¬c = '=' := fun hh => h.1 hh.symm
      simp [parseLabel, hc, ih h.2]

/-- Witness for C10 at concrete inputs: the argument a=b=c maps key a to
value b=c, and an argument without = maps its whole text to None. -/
theorem claim_c10_label_split_witness :
    parseLabel ['a', '=', 'b', '=', 'c'] = (['a'], some ['b', '=', 'c']) ∧
    parseLabel ['a', 'b', 'c'] = (['a', 'b', 'c'], none) :=
  ⟨claim_c10_label_split.1 ['a'] ['b', '=', 'c'] (by decide),
   claim_c10_label_split.2 ['a', 'b', 'c'] (by decide)⟩

/-- C7: the backup-name argument LAST resolves to the first backup of the
listing; an empty listing fails with the no-backups error; a literal name
absent from the listing fails as well. -/
theorem claim_c7_backup_name_resolution :
    (∀ b rest, validateName (b :: rest) "LAST" = .ok b) ∧
    validateName [] "LAST" = .usageError "There are no backups." ∧
    (∀ backups name, name ≠ "LAST" → backups.contains name = false →
      validateName backups name =
        .usageError ("No backups with name \"" ++ name ++ "\" were found.")) := by
  refine ⟨fun b rest => by simp [validateName], by simp [validateName], ?_⟩
  intro backups name h1 h2
  rw [validateName.eq_def, if_neg h1, if_neg (by rw [h2]; simp)]

/-- Witness for C7 at concrete inputs: LAST resolves to the listing head,
the empty listing fails, and an unknown name fails. -/
theorem claim_c7_backup_name_resolution_witness :
    validateName ["b2", "b1"] "LAST" = .ok "b2" ∧
    validateName [] "LAST" = .usageError "There are no backups." ∧
    validateName ["b2", "b1"] "nope" =
      .usageError "No backups with name \"nope\" were found." :=
  ⟨claim_c7_backup_name_resolution.1 "b2" ["b1"],
   claim_c7_backup_name_resolution.2.1,
   claim_c7_backup_name_resolution.2.2 ["b2", "b1"] "nope" (by decide) (by decide)⟩

/-- The number of plaintext chunks of a stream of `n` bytes cut into chunks
of size `c` is `ceil(n / c)`. -/
theorem plaintextChunkSizes_length (c : Nat) (hc : 0 < c) :
    ∀ n, (plaintextChunkSizes c n).length = (n + c - 1) / c := by
  intro n
  induction n using Nat.strong_induction_on with
  | _ n ih =>
    match n with
    | 0 =>
      simp only [plaintextChunkSizes, List.length_nil]
      rw [Nat.div_eq_of_lt (by omega)]
    | m + 1 =>
      match c, hc with
      | c2 + 1, _ =>
        simp only [plaintextChunkSizes, List.length_cons]
        rw [ih (m + 1 - (c2 + 1)) (by omega)]
        by_cases hle : m + 1 ≤ c2 + 1
        · have h1 : m + 1 - (c2 + 1) = 0 := by omega
          rw [h1, Nat.div_eq_of_lt (by omega)]
          have h3 : m + 1 + (c2 + 1) - 1 = m + (c2 + 1) := by omega
          rw [h3, Nat.add_div_right _ (by omega), Nat.div_eq_of_lt (by omega)]
        · have h2 : m + 1 - (c2 + 1) + (c2 + 1) - 1 = m := by omega
          have h3 : m + 1 + (c2 + 1) - 1 = m + (c2 + 1) := by omega
          rw [h2, h3, Nat.add_div_right _ (by omega)]

/-- The plaintext chunks of a stream of `n` bytes add back up to `n`. -/
theorem plaintextChunkSizes_sum (c : Nat) :
    ∀ n, (plaintextChunkSizes c n).sum = n := by
  intro n
  induction n using Nat.strong_induction_on with
  | _ n ih =>
    match n with
    | 0 => simp [plaintextChunkSizes]
    | m + 1 =>
      match c with
      | 0 => simp [plaintextChunkSizes]
      | c2 + 1 =>
        simp only [plaintextChunkSizes, List.sum_cons]
        rw [ih (m + 1 - (c2 + 1)) (by omega)]
        omega

/-- C5: for plaintext length `n`, chunk size `c > 0` and metadata size `m`,
the pre-pipeline estimated encrypted size equals `ceil(n / c) * (c + m)`;
the encrypt stage emits `ceil(n / c)` ciphertext chunks, its plaintext
chunks cover the stream exactly, and each ciphertext chunk is its plaintext
chunk plus the metadata size. -/
theorem claim_c5_encrypted_size (conf : EncryptionConf) (n : Nat)
    (hc : 0 < conf.chunk_size) :
    uploadDataPipelineEstimatedSize conf true n
      = ((n + conf.chunk_size - 1) / conf.chunk_size)
          * (conf.chunk_size + conf.metadata_size) ∧
    (encryptStageChunkSizes conf n).length
      = (n + conf.chunk_size - 1) / conf.chunk_size ∧
    (plaintextChunkSizes conf.chunk_size n).sum = n ∧
    encryptStageChunkSizes conf n
      = (plaintextChunkSizes conf.chunk_size n).map (fun s => s + conf.metadata_size) := by
  refine ⟨rfl, ?_, plaintextChunkSizes_sum conf.chunk_size n, rfl⟩
  rw [encryptStageChunkSizes, List.length_map, plaintextChunkSizes_length conf.chunk_size hc n]

/-- Witness for C5 at chunk size 8, metadata size 32 and plaintext length
17: the estimate is `ceil(17/8) * 40`. -/
theorem claim_c5_encrypted_size_witness :
    uploadDataPipelineEstimatedSize ⟨8, 32⟩ true 17 = ((17 + 8 - 1) / 8) * (8 + 32) ∧
    (encryptStageChunkSizes ⟨8, 32⟩ 17).length = (17 + 8 - 1) / 8 ∧
    (plaintextChunkSizes (8 : Nat) 17).sum = 17 ∧
    encryptStageChunkSizes ⟨8, 32⟩ 17 =
      (plaintextChunkSizes (8 : Nat) 17).map (fun s => s + 32) :=
  claim_c5_encrypted_size ⟨8, 32⟩ 17 (by decide)

/-- The four accumulators of the classification loop of `_restore_tables`
are the order-preserving filters of the rewritten input tables. -/
theorem classifyTablesForRestore_eq_filters (mt dist vw : String → Bool) (rw : Table → Table)
    (tables : List Table) :
    classifyTablesForRestore mt dist vw rw tables =
      ((tables.map rw).filter (fun t => mt t.engine),
       (tables.map rw).filter (fun t => !mt t.engine && dist t.engine),
       (tables.map rw).filter (fun t => !mt t.engine && !dist t.engine && vw t.engine),
       (tables.map rw).filter (fun t => !mt t.engine && !dist t.engine && !vw t.engine)) := by
  induction tables with
  | nil => rfl
  | cons t rest ih =>
    simp only [classifyTablesForRestore, ih, List.map_cons, List.filter_cons]
    by_cases h1 : mt (rw t).engine <;> by_cases h2 : dist (rw t).engine <;>
      by_cases h3 : vw (rw t).engine <;> simp [h1, h2, h3]

/-- C6: `_restore_tables` hands the rewritten tables to the retry loop as
MergeTree tables first, then tables that are neither MergeTree nor
Distributed nor views, then Distributed tables, then views, and each class
keeps the relative input order.  The engine predicates are assumed mutually
exclusive on the tables at hand (as the real `is_merge_tree` /
`is_distributed` / `is_view` are). -/
theorem claim_c6_restore_order (mt dist vw : String → Bool) (rw : Table → Table)
    (tables : List Table)
    (hmd : ∀ t ∈ tables.map rw, ¬(mt t.engine = true ∧ dist t.engine = true))
    (hmv : ∀ t ∈ tables.map rw, ¬(mt t.engine = true ∧ vw t.engine = true))
    (hdv : ∀ t ∈ tables.map rw, ¬(dist t.engine = true ∧ vw t.engine = true)) :
    restoreTablesOrder mt dist vw rw tables =
      (tables.map rw).filter (fun t => mt t.engine)
      ++ (tables.map rw).filter (fun t => !mt t.engine && !dist t.engine && !vw t.engine)
      ++ (tables.map rw).filter (fun t => dist t.engine)
      ++ (tables.map rw).filter (fun t => vw t.engine) := by
  rw [restoreTablesOrder, classifyTablesForRestore_eq_filters]
  have hd : (tables.map rw).filter (fun t => !mt t.engine && dist t.engine)
      = (tables.map rw).filter (fun t => dist t.engine) := by
    apply List.filter_congr
    intro t ht
    cases hm : mt t.engine with
    | false => simp [hm]
    | true =>
      cases hdt : dist t.engine with
      | false => simp [hm, hdt]
      | true => exact absurd ⟨hm, hdt⟩ (hmd t ht)
  have hv : (tables.map rw).filter (fun t => !mt t.engine && !dist t.engine && vw t.engine)
      = (tables.map rw).filter (fun t => vw t.engine) := by
    apply List.filter_congr
    intro t ht
    cases hvt : vw t.engine with
    | false => simp [hvt]
    | true =>
      cases hm : mt t.engine with
      | true => exact absurd ⟨hm, hvt⟩ (hmv t ht)
      | false =>
        cases hdt : dist t.engine with
        | true => exact absurd ⟨hdt, hvt⟩ (hdv t ht)
        | false => simp [hvt, hm, hdt]
  rw [hd, hv]

/-- Witness for C6 at a concrete table list with mutually exclusive engine
predicates: the handed-over order is MergeTree, other, Distributed, view,
input order kept inside each class. -/
theorem claim_c6_restore_order_witness :
    restoreTablesOrder (fun e => e == "MergeTree") (fun e => e == "Distributed")
      (fun e => e == "View") id
      [⟨"d", "t1", "Distributed"⟩, ⟨"d", "t2", "MergeTree"⟩, ⟨"d", "t3", "Log"⟩,
       ⟨"d", "t4", "View"⟩, ⟨"d", "t5", "MergeTree"⟩] =
      (([⟨"d", "t1", "Distributed"⟩, ⟨"d", "t2", "MergeTree"⟩, ⟨"d", "t3", "Log"⟩,
         ⟨"d", "t4", "View"⟩, ⟨"d", "t5", "MergeTree"⟩] : List Table).map id).filter
          (fun t => t.engine == "MergeTree")
      ++ (([⟨"d", "t1", "Distributed"⟩, ⟨"d", "t2", "MergeTree"⟩, ⟨"d", "t3", "Log"⟩,
            ⟨"d", "t4", "View"⟩, ⟨"d", "t5", "MergeTree"⟩] : List Table).map id).filter
          (fun t => !(t.engine == "MergeTree") && !(t.engine == "Distributed")
            && !(t.engine == "View"))
      ++ (([⟨"d", "t1", "Distributed"⟩, ⟨"d", "t2", "MergeTree"⟩, ⟨"d", "t3", "Log"⟩,
            ⟨"d", "t4", "View"⟩, ⟨"d", "t5", "MergeTree"⟩] : List Table).map id).filter
          (fun t => t.engine == "Distributed")
      ++ (([⟨"d", "t1", "Distributed"⟩, ⟨"d", "t2", "MergeTree"⟩, ⟨"d", "t3", "Log"⟩,
            ⟨"d", "t4", "View"⟩, ⟨"d", "t5", "MergeTree"⟩] : List Table).map id).filter
          (fun t => t.engine == "View") :=
  claim_c6_restore_order (fun e => e == "MergeTree") (fun e => e == "Distributed")
    (fun e => e == "View") id _ (by decide) (by decide) (by decide)

/-- When the re-read mtime is absent or differs from the snapshot,
`_backup_table` skips the table and removes the frozen data. -/
theorem backupTableFromMtimeCheck_mismatch (table : Table) (env : BackupTableEnv)
    (schemaOnly : Bool) (oldMtime : Int) (acts : List BackupTableAction)
    (hmt : env.newMtime ≠ some oldMtime) :
    backupTableFromMtimeCheck table env schemaOnly oldMtime acts
      = (.ok none, acts ++ [.removeFreezedData]) := by
  cases h : env.newMtime with
  | none => simp [backupTableFromMtimeCheck, h]
  | some m =>
    have hne : oldMtime ≠ m := fun he => hmt (by rw [h, he])
    simp [backupTableFromMtimeCheck, h, hne]

/-- C2: when the metadata mtime re-read after the freeze step is absent or
differs from the pre-freeze snapshot, `_backup_table` returns None (the
table is excluded from the backup), the frozen data is removed, neither the
DDL upload nor the data backup happens, and the enclosing per-database loop
carries on with the remaining tables. -/
theorem claim_c2_occ_mtime_skip (table : Table) (env : BackupTableEnv)
    (schemaOnly mergeTree : Bool) (oldMtime : Int)
    (rest : List (Table × BackupTableEnv × Bool × Int))
    (hcs : env.createStatement.isSome)
    (hfr : schemaOnly = false → mergeTree = true → env.freezeOk = true)
    (hmt : env.newMtime ≠ some oldMtime) :
    (backupTable table env schemaOnly mergeTree oldMtime).1 = .ok none ∧
    BackupTableAction.removeFreezedData ∈ (backupTable table env schemaOnly mergeTree oldMtime).2 ∧
    BackupTableAction.uploadCreateStatement ∉ (backupTable table env schemaOnly mergeTree oldMtime).2 ∧
    BackupTableAction.backupFrozenData ∉ (backupTable table env schemaOnly mergeTree oldMtime).2 ∧
    backupDatabaseTables schemaOnly ((table, env, mergeTree, oldMtime) :: rest)
      = backupDatabaseTables schemaOnly rest := by
  obtain ⟨s, hs⟩ := Option.isSome_iff_exists.mp hcs
  have hstep : backupTable table env schemaOnly mergeTree oldMtime
      = (.ok none,
         (if !schemaOnly && mergeTree then [BackupTableAction.freezeTable] else [])
           ++ [.removeFreezedData]) := by
    rw [backupTable.eq_def, hs]
    by_cases hb : (!schemaOnly && mergeTree) = true
    · have hso : schemaOnly = false := by
        cases hso2 : schemaOnly <;> simp [hso2] at hb ⊢
      have hmg : mergeTree = true := by
        cases hmg2 : mergeTree <;> simp [hmg2] at hb ⊢
      rw [if_pos hb, hfr hso hmg,
        backupTableFromMtimeCheck_mismatch table env schemaOnly oldMtime _ hmt]
      simp [hb]
    · rw [if_neg hb, backupTableFromMtimeCheck_mismatch table env schemaOnly oldMtime _ hmt]
      simp [hb]
  refine ⟨by rw [hstep], by rw [hstep]; simp, ?_, ?_, ?_⟩
  · rw [hstep]
    by_cases hb : (!schemaOnly && mergeTree) = true <;> simp [hb]
  · rw [hstep]
    by_cases hb : (!schemaOnly && mergeTree) = true <;> simp [hb]
  · simp only [backupDatabaseTables, hstep]

/-- Witness for C2: a MergeTree table whose DDL file mtime changed between
the pre-freeze snapshot (5) and the re-read (4) is skipped without DDL or
data upload, its frozen data is removed, and the loop moves on. -/
theorem claim_c2_occ_mtime_skip_witness :
    (backupTable ⟨"db1", "t1", "MergeTree"⟩ ⟨some "CREATE TABLE t1", true, true, some 4⟩
      false true 5).1 = .ok none ∧
    BackupTableAction.removeFreezedData ∈
      (backupTable ⟨"db1", "t1", "MergeTree"⟩ ⟨some "CREATE TABLE t1", true, true, some 4⟩
        false true 5).2 ∧
    BackupTableAction.uploadCreateStatement ∉
      (backupTable ⟨"db1", "t1", "MergeTree"⟩ ⟨some "CREATE TABLE t1", true, true, some 4⟩
        false true 5).2 ∧
    BackupTableAction.backupFrozenData ∉
      (backupTable ⟨"db1", "t1", "MergeTree"⟩ ⟨some "CREATE TABLE t1", true, true, some 4⟩
        false true 5).2 ∧
    backupDatabaseTables false
      [(⟨"db1", "t1", "MergeTree"⟩, ⟨some "CREATE TABLE t1", true, true, some 4⟩, true, 5)]
      = backupDatabaseTables false [] :=
  claim_c2_occ_mtime_skip ⟨"db1", "t1", "MergeTree"⟩
    ⟨some "CREATE TABLE t1", true, true, some 4⟩ false true 5 []
    (by decide) (fun _ _ => rfl) (by decide)

/-- The frozen-part loop of `_backup_frozen_table_data` on a non-s3 disk:
dedup hits are removed locally and their linked metadata recorded, dedup
misses are uploaded and collected for validation, and every part adds
exactly one metadata entry, in input order. -/
theorem backupFrozenParts_characterization (dedup : FrozenPart → Option DataPartMeta)
    (diskType : String) (hds : diskType ≠ "s3") :
    ∀ (parts : List FrozenPart) (eff : FrozenBackupEffects),
      backupFrozenParts dedup diskType parts eff =
        { tableParts := eff.tableParts ++ parts.map (fun p => (dedup p).getD (fromFrozenPart p)),
          removedParts := eff.removedParts
            ++ (parts.filter (fun p => (dedup p).isSome)).map FrozenPart.name,
          uploadCalls := eff.uploadCalls
            ++ (parts.filter (fun p => (dedup p).isNone)).map FrozenPart.name,
          uploadedParts := eff.uploadedParts
            ++ (parts.filter (fun p => (dedup p).isNone)).map fromFrozenPart } := by
  intro parts
  induction parts with
  | nil => intro eff; simp [backupFrozenParts]
  | cons p rest ih =>
    intro eff
    cases hd : dedup p with
    | some part =>
      simp only [backupFrozenParts, if_neg hds, hd]
      rw [ih]
      simp [hd, List.filter_cons, List.append_assoc]
    | none =>
      simp only [backupFrozenParts, if_neg hds, hd]
      rw [ih]
      simp [hd, List.filter_cons, List.append_assoc]

/-- C4: for every frozen part on a non-s3 disk, a dedup-index hit means the
local frozen copy is removed and `upload_data_part` is not called for it (a
part appears in the upload calls only on a dedup miss); a miss means the
part is uploaded and its freshly built metadata collected for post-upload
validation; in both cases exactly one part metadata per part is appended to
the table metadata. -/
theorem claim_c4_frozen_part_dedup (dedup : FrozenPart → Option DataPartMeta)
    (diskType : String) (parts : List FrozenPart) (eff : FrozenBackupEffects)
    (hds : diskType ≠ "s3") :
    backupFrozenParts dedup diskType parts eff =
      { tableParts := eff.tableParts ++ parts.map (fun p => (dedup p).getD (fromFrozenPart p)),
        removedParts := eff.removedParts
          ++ (parts.filter (fun p => (dedup p).isSome)).map FrozenPart.name,
        uploadCalls := eff.uploadCalls
          ++ (parts.filter (fun p => (dedup p).isNone)).map FrozenPart.name,
        uploadedParts := eff.uploadedParts
          ++ (parts.filter (fun p => (dedup p).isNone)).map fromFrozenPart } ∧
    (backupFrozenParts dedup diskType parts eff).tableParts.length
      = eff.tableParts.length + parts.length := by
  refine ⟨backupFrozenParts_characterization dedup diskType hds parts eff, ?_⟩
  rw [backupFrozenParts_characterization dedup diskType hds parts eff]
  simp

/-- Witness for C4 on a local disk with one dedup hit (part x) and one miss
(part y): x is removed and not uploaded, y is uploaded and collected, and
both append one metadata entry each. -/
theorem claim_c4_frozen_part_dedup_witness :
    backupFrozenParts
        (fun fp => if fp.name = "x" then some ⟨"x", some "2024backup"⟩ else none) "local"
        [⟨"x", "c1"⟩, ⟨"y", "c2"⟩] ⟨[], [], [], []⟩ =
      { tableParts := ([] : List DataPartMeta)
          ++ ([⟨"x", "c1"⟩, ⟨"y", "c2"⟩] : List FrozenPart).map
            (fun p => ((fun fp =>
              if fp.name = "x" then some (⟨"x", some "2024backup"⟩ : DataPartMeta)
              else none) p).getD (fromFrozenPart p)),
        removedParts := ([] : List String)
          ++ (([⟨"x", "c1"⟩, ⟨"y", "c2"⟩] : List FrozenPart).filter
            (fun p => ((fun fp =>
              if fp.name = "x" then some (⟨"x", some "2024backup"⟩ : DataPartMeta)
              else none) p).isSome)).map FrozenPart.name,
        uploadCalls := ([] : List String)
          ++ (([⟨"x", "c1"⟩, ⟨"y", "c2"⟩] : List FrozenPart).filter
            (fun p => ((fun fp =>
              if fp.name = "x" then some (⟨"x", some "2024backup"⟩ : DataPartMeta)
              else none) p).isNone)).map FrozenPart.name,
        uploadedParts := ([] : List DataPartMeta)
          ++ (([⟨"x", "c1"⟩, ⟨"y", "c2"⟩] : List FrozenPart).filter
            (fun p => ((fun fp =>
              if fp.name = "x" then some (⟨"x", some "2024backup"⟩ : DataPartMeta)
              else none) p).isNone)).map fromFrozenPart } ∧
    (backupFrozenParts
        (fun fp => if fp.name = "x" then some ⟨"x", some "2024backup"⟩ else none) "local"
        [⟨"x", "c1"⟩, ⟨"y", "c2"⟩] ⟨[], [], [], []⟩).tableParts.length
      = ([] : List DataPartMeta).length + ([⟨"x", "c1"⟩, ⟨"y", "c2"⟩] : List FrozenPart).length :=
  claim_c4_frozen_part_dedup
    (fun fp => if fp.name = "x" then some ⟨"x", some "2024backup"⟩ else none) "local"
    [⟨"x", "c1"⟩, ⟨"y", "c2"⟩] ⟨[], [], [], []⟩ (by decide)

/-- C9: when the ATTACH-based restore path fails and the CREATE fallback
also fails, `_restore_table_object` raises ClickhouseBackupError and its
last side-effecting call before raising is the drop-if-exists of the
partially created object (dictionary or table). -/
theorem claim_c9_drop_before_raise (env : RestoreObjectEnv)
    (hfail : env.attachOk = false ∨
      (env.isReplicatedStatement = true ∧ env.isMatView = false ∧
        env.versionGe218 = true ∧ env.replicaOk = false))
    (hcreate : env.createOk = false) :
    (restoreTableObject env).1 = .error "Failed to restore table" ∧
    (restoreTableObject env).2.getLast? =
      some (if env.isDictionary then .dropDictionaryIfExists else .dropTableIfExists) := by
  have hfb : ∀ acts, (restoreTableFallback env acts).1 = .error "Failed to restore table" ∧
      (restoreTableFallback env acts).2.getLast? =
        some (if env.isDictionary then .dropDictionaryIfExists else .dropTableIfExists) := by
    intro acts
    cases hdic : env.isDictionary <;>
      simp [restoreTableFallback, hcreate, hdic, List.getLast?_concat]
  cases ha : env.attachOk with
  | false =>
    simp only [restoreTableObject, ha, Bool.false_eq_true, if_false]
    exact hfb _
  | true =>
    rcases hfail with h | ⟨h1, h2, h3, h4⟩
    · rw [ha] at h
      cases h
    · simp only [restoreTableObject, ha, h1, h2, h3, h4, Bool.not_false, Bool.and_self,
        if_true, Bool.false_eq_true, if_false]
      exact hfb _

/-- Witness for C9: a non-replicated non-dictionary table whose ATTACH and
CREATE both fail is dropped (drop-table-if-exists is the last call) and the
error is raised. -/
theorem claim_c9_drop_before_raise_witness :
    (restoreTableObject ⟨false, true, false, false, false, true, false⟩).1
      = .error "Failed to restore table" ∧
    (restoreTableObject ⟨false, true, false, false, false, true, false⟩).2.getLast? =
      some (if (⟨false, true, false, false, false, true, false⟩ : RestoreObjectEnv).isDictionary
        then .dropDictionaryIfExists else .dropTableIfExists) :=
  claim_c9_drop_before_raise ⟨false, true, false, false, false, true, false⟩
    (Or.inl rfl) rfl

/-- The download loop of `_restore_data` returns the parts that will be
attached whenever every transfer succeeds or `keep_going` is set. -/
theorem collectAttachParts_ok (skipCloudStorage keepGoing : Bool) :
    ∀ parts : List RestorePart,
      (keepGoing = true ∨ ∀ p ∈ parts, prepFails skipCloudStorage p = false) →
      collectAttachParts skipCloudStorage keepGoing parts
        = .ok (parts.filter (willAttach skipCloudStorage)) := by
  intro parts
  induction parts with
  | nil => intro _; simp [collectAttachParts]
  | cons p rest ih =>
    intro h
    have hrest : keepGoing = true ∨ ∀ q ∈ rest, prepFails skipCloudStorage q = false := by
      rcases h with h | h
      · exact Or.inl h
      · exact Or.inr fun q hq => h q (List.mem_cons_of_mem p hq)
    have hih := ih hrest
    cases har : p.alreadyRestored with
    | true =>
      have hwa : willAttach skipCloudStorage p = false := by simp [willAttach, har]
      simp [collectAttachParts, har, hih, List.filter_cons, hwa]
    | false =>
      cases hdc : p.diskClass with
      | s3Revision =>
        have hwa : willAttach skipCloudStorage p = true := by simp [willAttach, har, hdc]
        simp [collectAttachParts, har, hdc, hih, List.filter_cons, hwa, Except.map]
      | cloudStorage =>
        by_cases hsc : skipCloudStorage = true
        · subst hsc
          have hwa : willAttach true p = false := by simp [willAttach, har, hdc]
          simp [collectAttachParts, har, hdc, hih, List.filter_cons, hwa]
        · have hsc2 : skipCloudStorage = false := by simpa using hsc
          subst hsc2
          cases hpo : p.prepOk with
          | true =>
            have hwa : willAttach false p = true := by
              simp [willAttach, har, hdc, hpo]
            simp [collectAttachParts, har, hdc, hpo, hih, List.filter_cons, hwa,
              Except.map]
          | false =>
            have hpf : prepFails false p = true := by
              simp [prepFails, har, hdc, hpo]
            have hkg : keepGoing = true := by
              rcases h with h | h
              · exact h
              · exact absurd (h p (List.mem_cons_self p rest)) (by simp [hpf])
            subst hkg
            have hwa : willAttach false p = false := by
              simp [willAttach, har, hdc, hpo]
            simp [collectAttachParts, har, hdc, hpo, hih, List.filter_cons, hwa]
      | localDisk =>
        cases hpo : p.prepOk with
        | true =>
          have hwa : willAttach skipCloudStorage p = true := by simp [willAttach, har, hdc, hpo]
          simp [collectAttachParts, har, hdc, hpo, hih, List.filter_cons, hwa, Except.map]
        | false =>
          have hpf : prepFails skipCloudStorage p = true := by simp [prepFails, har, hdc, hpo]
          have hkg : keepGoing = true := by
            rcases h with h | h
            · exact h
            · exact absurd (h p (List.mem_cons_self p rest)) (by simp [hpf])
          subst hkg
          have hwa : willAttach skipCloudStorage p = false := by
            simp [willAttach, har, hdc, hpo]
          simp [collectAttachParts, har, hdc, hpo, hih, List.filter_cons, hwa]

/-- The attach loop of `_restore_data` records every successful attach via
`add_part` and every failed attach via `add_failed_part`, in order, and
never raises. -/
theorem attachCollectedParts_characterization :
    ∀ (ps : List RestorePart) (st : RestoreDataState),
      attachCollectedParts st ps =
        ⟨st.restoredParts ++ (ps.filter (fun p => p.attachOk)).map RestorePart.name,
         st.failedParts ++ (ps.filter (fun p => !p.attachOk)).map RestorePart.name⟩ := by
  intro ps
  induction ps with
  | nil => intro st; simp [attachCollectedParts]
  | cons p rest ih =>
    intro st
    cases hao : p.attachOk with
    | true => simp [attachCollectedParts, hao, ih, List.filter_cons, List.append_assoc]
    | false => simp [attachCollectedParts, hao, ih, List.filter_cons, List.append_assoc]

/-- Counterexample to C1 as stated: with `keep_going = false`, a table with
a single part whose download succeeds and whose ATTACH then fails finishes
with result `ok` — no exception is raised — while the attach failure is
merely recorded in the progress state (`failedParts = [part1]`).  The first
attach failure therefore does not abort the restore. -/
theorem claim_c1_counterexample :
    restoreData false false
        [(true, [⟨"part1", .localDisk, false, true, false⟩])] ⟨[], []⟩
      = .ok ⟨[], ["part1"]⟩ := by
  rfl

/-- C1 (amended): every part whose ATTACH to the live table fails has the
failure recorded in the restore progress state, and attach failures are
always non-fatal — for any value of `keep_going` the per-table restore
completes with `ok` (the `keep_going` flag only governs failures of the
download/copy phase). -/
theorem claim_c1_attach_failures_recorded (skipCloudStorage keepGoing : Bool)
    (parts : List RestorePart) (st : RestoreDataState)
    (h : keepGoing = true ∨ ∀ p ∈ parts, prepFails skipCloudStorage p = false) :
    restoreDataTable skipCloudStorage keepGoing parts st =
      .ok ⟨st.restoredParts
            ++ ((parts.filter (willAttach skipCloudStorage)).filter
              (fun p => p.attachOk)).map RestorePart.name,
          st.failedParts
            ++ ((parts.filter (willAttach skipCloudStorage)).filter
              (fun p => !p.attachOk)).map RestorePart.name⟩ := by
  simp only [restoreDataTable, collectAttachParts_ok skipCloudStorage keepGoing parts h,
    attachCollectedParts_characterization]

/-- Witness for C1 (amended): with `keep_going = false`, a part whose
download succeeds and whose attach fails is recorded in `failedParts` and
the table restore still returns `ok`. -/
theorem claim_c1_attach_failures_recorded_witness :
    restoreDataTable false false [⟨"part1", .localDisk, false, true, false⟩] ⟨[], []⟩ =
      .ok ⟨([] : List String)
            ++ ((([⟨"part1", .localDisk, false, true, false⟩] : List RestorePart).filter
              (willAttach false)).filter (fun p => p.attachOk)).map RestorePart.name,
          ([] : List String)
            ++ ((([⟨"part1", .localDisk, false, true, false⟩] : List RestorePart).filter
              (willAttach false)).filter (fun p => !p.attachOk)).map RestorePart.name⟩ :=
  claim_c1_attach_failures_recorded false false
    [⟨"part1", .localDisk, false, true, false⟩] ⟨[], []⟩ (Or.inr (by decide))

/-- The retry loop of `_restore_table_objects` exits within an explicit
fuel bound, and it exits either with the queue emptied and no pending
errors, or at the stall break, where the errors have just come to outnumber
the unprocessed tables by exactly one. -/
theorem restoreTableObjectsLoop_total (succeed : Nat → Table → Bool) :
    ∀ (fuel step : Nat) (queue errors : List Table) (log : List (Table × Bool)),
      errors.length ≤ queue.length →
      queue.length * queue.length + 3 * queue.length + 2
        ≤ fuel + 2 * errors.length + 1 →
      ∃ s, restoreTableObjectsLoop succeed fuel step queue errors log = some s ∧
        ((s.queue = [] ∧ s.errors = []) ∨ s.errors.length = s.queue.length + 1) := by
  intro fuel
  induction fuel with
  | zero =>
    intro step queue errors log hle hbound
    exfalso
    generalize hQ : queue.length * queue.length = Q at hbound
    omega
  | succ fuel ih =>
    intro step queue errors log hle hbound
    match queue with
    | [] =>
      have he : errors = [] := by
        have h0 : errors.length = 0 := by simpa using hle
        simpa using h0
      exact ⟨⟨errors, [], log⟩, rfl, Or.inl ⟨rfl, he⟩⟩
    | t :: rest =>
      by_cases hs : succeed step t = true
      · have hb2 : rest.length * rest.length + 3 * rest.length + 2
            ≤ fuel + 2 * List.length ([] : List Table) + 1 := by
          simp only [List.length_cons] at hbound hle
          have hexp : (rest.length + 1) * (rest.length + 1)
              = rest.length * rest.length + 2 * rest.length + 1 := by ring
          rw [hexp] at hbound
          generalize hQ : rest.length * rest.length = Q at hbound ⊢
          simp only [List.length_nil]
          omega
        obtain ⟨s, hsome, hprop⟩ :=
          ih (step + 1) rest [] (log ++ [(t, true)]) (by simp) hb2
        refine ⟨s, ?_, hprop⟩
        simp only [restoreTableObjectsLoop, hs, if_true]
        exact hsome
      · have hsf : succeed step t = false := by
          cases h2 : succeed step t
          · rfl
          · exact absurd h2 hs
        by_cases hbr : (rest ++ [t]).length < (errors ++ [t]).length
        · refine ⟨⟨errors ++ [t], rest ++ [t], log ++ [(t, false)]⟩, ?_, ?_⟩
          · simp only [restoreTableObjectsLoop, hsf, Bool.false_eq_true, if_false,
              if_pos hbr]
          · right
            simp only [List.length_append, List.length_cons, List.length_nil] at hbr ⊢
            simp only [List.length_cons] at hle
            omega
        · have hle2 : (errors ++ [t]).length ≤ (rest ++ [t]).length := Nat.le_of_not_lt hbr
          have hb2 : (rest ++ [t]).length * (rest ++ [t]).length
                + 3 * (rest ++ [t]).length + 2
              ≤ fuel + 2 * (errors ++ [t]).length + 1 := by
            simp only [List.length_append, List.length_cons, List.length_nil] at hle2 ⊢
            simp only [List.length_cons] at hbound
            generalize hQ : (rest.length + 1) * (rest.length + 1) = Q at hbound ⊢
            omega
          obtain ⟨s, hsome, hprop⟩ :=
            ih (step + 1) (rest ++ [t]) (errors ++ [t]) (log ++ [(t, false)]) hle2 hb2
          refine ⟨s, ?_, hprop⟩
          simp only [restoreTableObjectsLoop, hsf, Bool.false_eq_true, if_false,
            if_neg hbr]
          exact hsome

/-- C3: for every finite table sequence and every outcome oracle, the retry
loop of `_restore_table_objects` terminates: the fueled embedding (one fuel
per iteration, each of which pops the queue head, clears the error list on
success, and on failure records one error and re-appends the table) reaches
its exit within the explicit bound `(n+1)*(n+2)`, stopping either with the
queue exhausted (and then no errors pending) or at the stall check, exactly
when the recorded consecutive errors have come to exceed the number of
tables remaining in the queue (by one). -/
theorem claim_c3_retry_loop_terminates (succeed : Nat → Table → Bool)
    (tables : List Table) :
    ∃ s, restoreTableObjectsLoop succeed ((tables.length + 1) * (tables.length + 2)) 0
        tables [] [] = some s ∧
      ((s.queue = [] ∧ s.errors = []) ∨ s.errors.length = s.queue.length + 1) := by
  apply restoreTableObjectsLoop_total
  · simp
  · have hexp : (tables.length + 1) * (tables.length + 2)
        = tables.length * tables.length + 3 * tables.length + 2 := by ring
    rw [hexp]
    generalize hQ : tables.length * tables.length = Q
    simp only [List.length_nil]
    omega

/-- Appending one attempt to the log either resets the failure streak (on a
success) or extends it by the attempted table (on a failure). -/
theorem failureStreak_append_one (log : List (Table × Bool)) (t : Table) (b : Bool) :
    failureStreak (log ++ [(t, b)])
      = if b then [] else failureStreak log ++ [t] := by
  simp [failureStreak, List.foldl_append]

/-- Along the retry loop the `errors` list always equals the failure streak
of the attempt log: a success clears it, a failure appends to it. -/
theorem restoreTableObjectsLoop_errors_streak (succeed : Nat → Table → Bool) :
    ∀ (fuel step : Nat) (queue errors : List Table) (log : List (Table × Bool))
      (s : RestoreLoopState),
      restoreTableObjectsLoop succeed fuel step queue errors log = some s →
      errors = failureStreak log →
      s.errors = failureStreak s.log := by
  intro fuel
  induction fuel with
  | zero =>
    intro step queue errors log s h _
    simp [restoreTableObjectsLoop] at h
  | succ fuel ih =>
    intro step queue errors log s h heq
    match queue with
    | [] =>
      have h2 : (⟨errors, [], log⟩ : RestoreLoopState) = s := by
        simpa [restoreTableObjectsLoop] using h
      rw [← h2]
      exact heq
    | t :: rest =>
      by_cases hs : succeed step t = true
      · simp only [restoreTableObjectsLoop, hs, if_true] at h
        refine ih (step + 1) rest [] (log ++ [(t, true)]) s h ?_
        rw [failureStreak_append_one]
        simp
      · have hsf : succeed step t = false := by
          cases h2 : succeed step t
          · rfl
          · exact absurd h2 hs
        by_cases hbr : (rest ++ [t]).length < (errors ++ [t]).length
        · simp only [restoreTableObjectsLoop, hsf, Bool.false_eq_true, if_false,
            if_pos hbr] at h
          have h2 : (⟨errors ++ [t], rest ++ [t], log ++ [(t, false)]⟩ : RestoreLoopState)
              = s := by simpa using h
          rw [← h2]
          show errors ++ [t] = failureStreak (log ++ [(t, false)])
          rw [failureStreak_append_one]
          simp [heq]
        · simp only [restoreTableObjectsLoop, hsf, Bool.false_eq_true, if_false,
            if_neg hbr] at h
          refine ih (step + 1) (rest ++ [t]) (errors ++ [t]) (log ++ [(t, false)]) s h ?_
          rw [failureStreak_append_one]
          simp [heq]

/-- Along the retry loop, a table sitting in the (duplicate-free) queue has
never had a successful attempt logged; in particular no table left in the
queue at exit was ever successfully re-created. -/
theorem restoreTableObjectsLoop_queue_no_success (succeed : Nat → Table → Bool) :
    ∀ (fuel step : Nat) (queue errors : List Table) (log : List (Table × Bool))
      (s : RestoreLoopState),
      restoreTableObjectsLoop succeed fuel step queue errors log = some s →
      queue.Nodup →
      (∀ t ∈ queue, (t, true) ∉ log) →
      ∀ t ∈ s.queue, (t, true) ∉ s.log := by
  intro fuel
  induction fuel with
  | zero =>
    intro step queue errors log s h _ _
    simp [restoreTableObjectsLoop] at h
  | succ fuel ih =>
    intro step queue errors log s h hnd hlog
    match queue with
    | [] =>
      have h2 : (⟨errors, [], log⟩ : RestoreLoopState) = s := by
        simpa [restoreTableObjectsLoop] using h
      rw [← h2]
      intro t ht
      simp at ht
    | t :: rest =>
      have hndr : rest.Nodup := (List.nodup_cons.mp hnd).2
      have htnr : t ∉ rest := (List.nodup_cons.mp hnd).1
      by_cases hs : succeed step t = true
      · simp only [restoreTableObjectsLoop, hs, if_true] at h
        refine ih (step + 1) rest [] (log ++ [(t, true)]) s h hndr ?_
        intro u hu
        simp only [List.mem_append, List.mem_singleton, not_or]
        refine ⟨hlog u (List.mem_cons_of_mem t hu), ?_⟩
        intro hpair
        have hut : u = t := congrArg Prod.fst hpair
        exact htnr (hut ▸ hu)
      · have hsf : succeed step t = false := by
          cases h2 : succeed step t
          · rfl
          · exact absurd h2 hs
        have hndq : (rest ++ [t]).Nodup := by
          simp [List.nodup_append, hndr, List.disjoint_singleton, htnr]
        have hlogq : ∀ u ∈ rest ++ [t], (u, true) ∉ log ++ [(t, false)] := by
          intro u hu
          have humem : u ∈ t :: rest := by
            rcases List.mem_append.mp hu with h2 | h2
            · exact List.mem_cons_of_mem t h2
            · simp only [List.mem_singleton] at h2
              simp [h2]
          simp only [List.mem_append, List.mem_singleton, not_or]
          refine ⟨hlog u humem, ?_⟩
          intro hpair
          have hbf : (true : Bool) = false := congrArg Prod.snd hpair
          cases hbf
        by_cases hbr : (rest ++ [t]).length < (errors ++ [t]).length
        · simp only [restoreTableObjectsLoop, hsf, Bool.false_eq_true, if_false,
            if_pos hbr] at h
          have h2 : (⟨errors ++ [t], rest ++ [t], log ++ [(t, false)]⟩ : RestoreLoopState)
              = s := by simpa using h
          rw [← h2]
          exact hlogq
        · simp only [restoreTableObjectsLoop, hsf, Bool.false_eq_true, if_false,
            if_neg hbr] at h
          exact ih (step + 1) (rest ++ [t]) (errors ++ [t]) (log ++ [(t, false)]) s h
            hndq hlogq

/-- Counterexample to C8 as stated: one table that always fails to restore.
The loop aborts with errors `[t, t]`; the final queue still holds `t` (a
failed table is pushed back to the tail before the stall check breaks), and
the returned failed set under `keep_going` is `[t]` — the table is both
still waiting in the queue at abort time and reported as failed,
contradicting the claim that tables still in the queue are not reported. -/
theorem claim_c8_counterexample :
    restoreTableObjectsLoop (fun _ _ => false) 6 0
        [(⟨"db1", "t1", "MergeTree"⟩ : Table)] [] []
      = some ⟨[⟨"db1", "t1", "MergeTree"⟩, ⟨"db1", "t1", "MergeTree"⟩],
              [⟨"db1", "t1", "MergeTree"⟩],
              [(⟨"db1", "t1", "MergeTree"⟩, false), (⟨"db1", "t1", "MergeTree"⟩, false)]⟩ ∧
    restoreTableObjectsOutcome true
        [(⟨"db1", "t1", "MergeTree"⟩ : Table), ⟨"db1", "t1", "MergeTree"⟩]
      = .ok [⟨"db1", "t1", "MergeTree"⟩] := by
  constructor
  · rfl
  · rfl

/-- C8 (amended): when the retry loop exits, the recorded errors are
exactly the final consecutive-failure streak of the attempt log (any single
success clears all previously recorded errors), the failed-table set
returned under `keep_going` — or named in the raised error otherwise — is
the set of distinct tables of that streak, and no table left in the queue
at abort time was ever successfully re-created.  (The streak tables
themselves remain in the queue, having been re-appended before the abort;
queue tables outside the streak are not reported.) -/
theorem claim_c8_failed_set_is_final_streak (succeed : Nat → Table → Bool)
    (tables : List Table) (hnd : tables.Nodup) :
    ∃ s, restoreTableObjectsLoop succeed ((tables.length + 1) * (tables.length + 2)) 0
        tables [] [] = some s ∧
      s.errors = failureStreak s.log ∧
      (∀ t, t ∈ s.errors.dedup ↔ t ∈ failureStreak s.log) ∧
      (s.errors ≠ [] →
        restoreTableObjectsOutcome true s.errors = .ok s.errors.dedup ∧
        restoreTableObjectsOutcome false s.errors = .raised s.errors.dedup) ∧
      (∀ t ∈ s.queue, (t, true) ∉ s.log) := by
  obtain ⟨s, hsome, _⟩ :=
    restoreTableObjectsLoop_total succeed ((tables.length + 1) * (tables.length + 2)) 0
      tables [] [] (by simp)
      (by
        have hexp : (tables.length + 1) * (tables.length + 2)
            = tables.length * tables.length + 3 * tables.length + 2 := by ring
        rw [hexp]
        generalize hQ : tables.length * tables.length = Q
        simp only [List.length_nil]
        omega)
  have hstreak := restoreTableObjectsLoop_errors_streak succeed _ _ _ _ _ _ hsome rfl
  refine ⟨s, hsome, hstreak, ?_, ?_, ?_⟩
  · intro t
    rw [← hstreak]
    exact List.mem_dedup
  · intro hne
    have hne2 : s.errors.isEmpty = false := by
      cases herr : s.errors
      · exact absurd herr hne
      · rfl
    constructor
    · simp [restoreTableObjectsOutcome, hne2]
    · simp [restoreTableObjectsOutcome, hne2]
  · exact restoreTableObjectsLoop_queue_no_success succeed _ _ _ _ _ _ hsome hnd
      (by simp)

/-- Witness for C8 (amended) on a duplicate-free two-table list where the
first attempt fails and all later attempts succeed. -/
theorem claim_c8_failed_set_is_final_streak_witness :
    ∃ s, restoreTableObjectsLoop (fun step _ => step != 0) ((2 + 1) * (2 + 2)) 0
        [(⟨"d", "a", "MergeTree"⟩ : Table), ⟨"d", "b", "Log"⟩] [] [] = some s ∧
      s.errors = failureStreak s.log ∧
      (∀ t, t ∈ s.errors.dedup ↔ t ∈ failureStreak s.log) ∧
      (s.errors ≠ [] →
        restoreTableObjectsOutcome true s.errors = .ok s.errors.dedup ∧
        restoreTableObjectsOutcome false s.errors = .raised s.errors.dedup) ∧
      (∀ t ∈ s.queue, (t, true) ∉ s.log) := by
  have h := claim_c8_failed_set_is_final_streak (fun step _ => step != 0)
    [⟨"d", "a", "MergeTree"⟩, ⟨"d", "b", "Log"⟩] (by simp)
  simpa using h

end ChBackup
